import Mathlib

/-!
Shallow embedding of `src/LLM-SQL/SQL_LLM_LangChain.py`.

Python strings are modelled as `List Char`.  The external effects of the
script (the LLM call, the SQLite metadata catalogue, the pandas SQL
executor, the filesystem and environment reads at startup) are modelled as
explicit oracles passed to the embedded functions, so that the script's
control flow over their success / exception outcomes is captured exactly.
-/

/-- Python strings, modelled as lists of characters. -/
abbrev PyStr := List Char

/-- The whitespace test used by Python's `str.strip()`:
space, tab, newline, carriage return, vertical tab, form feed. -/
def pyIsSpace (c : Char) : Bool :=
  c == ' ' || c == '\t' || c == '\n' || c == '\r' ||
  c == Char.ofNat 11 || c == Char.ofNat 12

/-- Python `str.lstrip()` restricted to whitespace. -/
def lstrip (s : PyStr) : PyStr := s.dropWhile pyIsSpace

/-- Python `str.rstrip()` restricted to whitespace: remove the trailing
run of whitespace characters. -/
def rstrip : PyStr → PyStr
  | [] => []
  | a :: r =>
    if rstrip r = [] && pyIsSpace a then [] else a :: rstrip r

/-- Python `str.strip()`: remove leading and trailing whitespace. -/
def strip (s : PyStr) : PyStr := rstrip (lstrip s)

/-- Python `str.startswith`. -/
def startswith : PyStr → PyStr → Bool
  | [], _ => true
  | _ :: _, [] => false
  | c :: p, d :: s => c == d && startswith p s

/-- Python `str.endswith`, via reversal. -/
def endswith (suf s : PyStr) : Bool := startswith suf.reverse s.reverse

/-- Python slicing `s[:len(s)-n]` (used for the `-3` end index of the
slices `s[6:-3]` and `s[3:-3]`). -/
def dropRight (s : PyStr) (n : Nat) : PyStr := s.take (s.length - n)

/-- The three-character markdown fence. -/
def fence : PyStr := "```".data

/-- The fence tagged with the `sql` language hint. -/
def fenceSql : PyStr := "```sql".data

/-- The bare `sql` language tag. -/
def sqlTag : PyStr := "sql".data

/-- Lines 156-159 of the source: the markdown code-block marker removal
inside `process_question`, applied to the already-stripped completion.

    if sql_query and sql_query.startswith('```sql') and sql_query.endswith('```'):
        sql_query = sql_query[6:-3].strip()
    elif sql_query and sql_query.startswith('```') and sql_query.endswith('```'):
        sql_query = sql_query[3:-3].strip()
-/
def strip_fences (sql_query : PyStr) : PyStr :=
  if !sql_query.isEmpty && startswith fenceSql sql_query && endswith fence sql_query then
    strip (dropRight (sql_query.drop 6) 3)
  else if !sql_query.isEmpty && startswith fence sql_query && endswith fence sql_query then
    strip (dropRight (sql_query.drop 3) 3)
  else sql_query

/-- The whole sanitization step applied to a raw LLM completion: line 152
first strips the completion (`.strip()` on the `chain.invoke` result),
and lines 156-159 then remove markdown fence markers. -/
def sanitizeResponse (raw : PyStr) : PyStr := strip_fences (strip raw)

/-- The guard of both fence-stripping branches, stripped of the `sql`-tag
distinction: the text is nonempty, begins with the three-character fence
and ends with the three-character fence. -/
def fence_wrapped (q : PyStr) : Bool :=
  !q.isEmpty && startswith fence q && endswith fence q

/-- A pandas `DataFrame`, abstracted to its tabular content: a header row
of column names and the data rows (cell values as strings). -/
structure DataFrame where
  cols : List PyStr
  rows : List (List PyStr)
deriving DecidableEq

/-- Outcome of the LLM call `chain.invoke(...)` on line 152: either the raw
completion text, or a raised exception carrying a message. -/
inductive LLMOutcome
  | ok (text : PyStr)
  | err (msg : PyStr)
deriving DecidableEq

/-- Outcome of `pd.read_sql_query(sql_query, conn)` on line 161: either a
materialized DataFrame, or a raised exception carrying a message. -/
inductive ExecOutcome
  | ok (df : DataFrame)
  | err (msg : PyStr)
deriving DecidableEq

/-- The `result` component returned by `process_question`: a DataFrame on
success, or an error-message string. -/
inductive QueryResult
  | table (df : DataFrame)
  | errMsg (msg : PyStr)
deriving DecidableEq

/-- Line 154: the f-string `f"Error generating SQL with LLM: {e}"`. -/
def genErrorText (e : PyStr) : PyStr := "Error generating SQL with LLM: ".data ++ e

/-- Line 163: the f-string `f"Error executing SQL: {e}"`. -/
def execErrorText (e : PyStr) : PyStr := "Error executing SQL: ".data ++ e

/-- Lines 143-164: `process_question`.  The LLM call and the SQL executor
are passed as oracles: `llm` maps the question to the outcome of
`chain.invoke` (the fixed global `schema` is absorbed into the oracle),
and `ex` maps the sanitized SQL text to the outcome of
`pd.read_sql_query` against the global connection. -/
def process_question (llm : PyStr → LLMOutcome) (ex : PyStr → ExecOutcome)
    (question : PyStr) : Option PyStr × QueryResult :=
  match llm question with
  | LLMOutcome.err e => (none, QueryResult.errMsg (genErrorText e))
  | LLMOutcome.ok raw =>
    let sql_query := sanitizeResponse raw
    match ex sql_query with
    | ExecOutcome.ok df => (some sql_query, QueryResult.table df)
    | ExecOutcome.err e => (some sql_query, QueryResult.errMsg (execErrorText e))

/-- Lines 179-187: the fixed list of example questions. -/
def questions : List PyStr :=
  [ "List all customers in Canada.".data,
    "Which employees are sales agents?".data,
    "What are the 5 most purchased tracks?".data,
    "Show total sales per country in decending order.".data,
    "Which artists have more than 5 albums?".data,
    "list three expensive albums".data,
    "What is the total revenue from sales?".data ]

/-- Lines 188-197: the driver loop.  Each question is processed in list
order and reported as the triple (question, generated SQL, result). -/
def questionsLoop (llm : PyStr → LLMOutcome) (ex : PyStr → ExecOutcome) :
    List PyStr → List (PyStr × (Option PyStr × QueryResult))
  | [] => []
  | q :: rest => (q, process_question llm ex q) :: questionsLoop llm ex rest

/-- Outcome of one step of SQLite metadata access inside `display_schema`:
either a value, or a raised exception carrying a message. -/
inductive MetaResult (α : Type)
  | ok (a : α)
  | exc (msg : PyStr)

/-- One row of `PRAGMA table_info`: the column's name (`column[1]`) and
declared type (`column[2]`). -/
structure Column where
  name : PyStr
  ctype : PyStr
deriving DecidableEq

/-- The global `cursor` object as `display_schema` uses it: the outcome of
the `sqlite_master` table-name query, and the outcome of
`PRAGMA table_info` for each table name. -/
structure Cursor where
  listTables : MetaResult (List PyStr)
  tableInfo : PyStr → MetaResult (List Column)

/-- Line 86: the f-string `f"Error extracting schema: {e}\n"` appended to
the partial schema when metadata enumeration raises. -/
def errText (m : PyStr) : PyStr := "Error extracting schema: ".data ++ m ++ ['\n']

/-- The header part `f"table: {table}"` of line 80. -/
def headerText (t : PyStr) : PyStr := "table: ".data ++ t

/-- Line 83 without its trailing newline: `f"  - {column[1]} ({column[2]})"`. -/
def renderColumn (c : Column) : PyStr :=
  "  - ".data ++ c.name ++ " (".data ++ c.ctype ++ ")".data

/-- Line 83 as appended: the column line followed by its newline. -/
def renderColumnNl (c : Column) : PyStr := renderColumn c ++ ['\n']

/-- The concatenation of all column lines of one table (lines 82-83). -/
def renderColumns (cs : List Column) : PyStr := (cs.map renderColumnNl).flatten

/-- The internal bookkeeping table filtered out on line 78. -/
def sqliteSequence : PyStr := "sqlite_sequence".data

/-- Lines 79-84: the per-table loop of `display_schema` accumulating into
`schema`.  If `PRAGMA table_info` raises for some table, the `except` on
lines 85-86 appends the error text to whatever was accumulated so far
(the header of the failing table is already appended at that point). -/
def schemaGo (ti : PyStr → MetaResult (List Column)) : List PyStr → PyStr
  | [] => []
  | t :: rest =>
    match ti t with
    | MetaResult.exc m => headerText t ++ "\nColumns:\n".data ++ errText m
    | MetaResult.ok cols =>
        headerText t ++ "\nColumns:\n".data ++ renderColumns cols ++ "\n".data ++
          schemaGo ti rest

/-- Lines 67-87: `display_schema`.  The body reads only the module-global
`cursor` (first argument); the declared parameter `conn` (second
argument) is never used — the call site on line 89 in fact passes the
cursor object for it. -/
def display_schema (cursor : Cursor) (conn : Cursor) : PyStr :=
  match cursor.listTables with
  | MetaResult.exc m => errText m
  | MetaResult.ok names =>
      schemaGo cursor.tableInfo (names.filter (fun n => n ≠ sqliteSequence))

/-- The first exception raised while enumerating the given tables'
columns, if any. -/
def firstExcAux (ti : PyStr → MetaResult (List Column)) : List PyStr → Option PyStr
  | [] => none
  | t :: rest =>
    match ti t with
    | MetaResult.exc m => some m
    | MetaResult.ok _ => firstExcAux ti rest

/-- The first exception raised during the whole metadata enumeration of
`display_schema`, if any. -/
def excOf (cursor : Cursor) : Option PyStr :=
  match cursor.listTables with
  | MetaResult.exc m => some m
  | MetaResult.ok names =>
      firstExcAux cursor.tableInfo (names.filter (fun n => n ≠ sqliteSequence))

/-- Helper for `splitLines`: prepend a character to the first line. -/
def consHead (c : Char) : List PyStr → List PyStr
  | [] => [[c]]
  | l :: ls => (c :: l) :: ls

/-- Split a string into its lines at newline characters (like Python's
`str.split` on a newline: a trailing newline yields a final empty line). -/
def splitLines : PyStr → List PyStr
  | [] => [[]]
  | c :: r => if c = '\n' then [] :: splitLines r else consHead c (splitLines r)

/-- A line of schema output that is a table header. -/
def headerLine (l : PyStr) : Bool := startswith "table:".data l

/-- A line of schema output that describes one column. -/
def columnLine (l : PyStr) : Bool := startswith "  - ".data l

/-- Number of table-header lines in a schema string. -/
def countHeaderLines (s : PyStr) : Nat := (splitLines s).countP headerLine

/-- Number of column lines in a schema string. -/
def countColumnLines (s : PyStr) : Nat := (splitLines s).countP columnLine

/-- The outcomes of the fallible setup steps of the script (lines 26-65
and 99-107): reading the seed SQL file, executing it to load the
database, the one unguarded-by-exit `Artist` count check, opening the
main connection, and the `os.getenv("GOOGLE-API-KEY")` lookup (`none`
when the variable is absent; Python also treats an empty value as
missing via `if not api_key`). -/
structure SetupEnv where
  readSeed : Except PyStr PyStr
  loadDb : PyStr → Except PyStr Unit
  artistCheck : Except PyStr Nat
  connectDb : Except PyStr Unit
  apiKey : Option PyStr

/-- Result of running the script top to bottom: an early `exit(1)`, or a
completed run carrying the per-question reports. -/
inductive RunResult
  | exitEarly
  | completed (reports : List (PyStr × (Option PyStr × QueryResult)))

/-- The disjunction of the four fatal setup failures: seed file
missing/unreadable, database load failure, connection failure, missing
(or empty) API key. -/
def setupFails (env : SetupEnv) : Bool :=
  (match env.readSeed with
   | Except.error _ => true
   | Except.ok s =>
     match env.loadDb s with
     | Except.error _ => true
     | Except.ok _ => false) ||
  (match env.connectDb with
   | Except.error _ => true
   | Except.ok _ => false) ||
  (match env.apiKey with
   | none => true
   | some k => k.isEmpty)

/-- The script's top-level control flow over its fallible setup steps
(lines 26-44: read and execute the seed script, each failure calling
`exit(1)`; lines 47-53: the Artist count check, whose failure is only
printed; lines 60-65: the main connection, failure calling `exit(1)`;
lines 99-107: the API key load, absence calling `exit(1)`), followed by
the question loop of lines 188-197.  Schema extraction (line 89) cannot
exit — `display_schema` always returns a string. -/
def mainScript (env : SetupEnv) (llm : PyStr → LLMOutcome) (ex : PyStr → ExecOutcome) :
    RunResult :=
  match env.readSeed with
  | Except.error _ => RunResult.exitEarly
  | Except.ok script =>
    match env.loadDb script with
    | Except.error _ => RunResult.exitEarly
    | Except.ok _ =>
      match env.connectDb with
      | Except.error _ => RunResult.exitEarly
      | Except.ok _ =>
        match env.apiKey with
        | none => RunResult.exitEarly
        | some k =>
          if k.isEmpty then RunResult.exitEarly
          else RunResult.completed (questionsLoop llm ex questions)

/-- The list of output lines contributed by one successfully enumerated
table: its header line, the `Columns:` line, one line per column, and
the blank separator line. -/
def blockLines (colsOf : PyStr → List Column) (t : PyStr) : List PyStr :=
  headerText t :: "Columns:".data :: ((colsOf t).map renderColumn ++ [[]])

/-- Concrete table names (as returned by the `sqlite_master` query) used
by the schema witnesses. -/
def namesW : List PyStr := ["Artist".data, "sqlite_sequence".data, "Album".data]

/-- Concrete per-table column metadata used by the schema witnesses. -/
def colsOfW : PyStr → List Column := fun n =>
  if n = "Artist".data then
    [⟨"ArtistId".data, "INTEGER".data⟩, ⟨"Name".data, "NVARCHAR(120)".data⟩]
  else if n = "Album".data then
    [⟨"AlbumId".data, "INTEGER".data⟩, ⟨"Title".data, "NVARCHAR(160)".data⟩,
      ⟨"ArtistId".data, "INTEGER".data⟩]
  else []

example : sanitizeResponse "```sql\nSELECT 1;\n```".data = "SELECT 1;".data := by decide
example : sanitizeResponse "```\nSELECT 1;\n```".data = "SELECT 1;".data := by decide
example : sanitizeResponse "  SELECT 1;  ".data = "SELECT 1;".data := by decide
example : sanitizeResponse "```python\nSELECT 1\n```".data = "python\nSELECT 1".data := by decide
example : sanitizeResponse "```sql SELECT 1```".data = "SELECT 1".data := by decide

theorem startswith_cons (a b : Char) (p s : PyStr) :
    startswith (a :: p) (b :: s) = (a == b && startswith p s) := rfl

theorem startswith_append_left (p r : PyStr) : startswith p (p ++ r) = true := by
  induction p with
  | nil => rfl
  | cons a t ih => simp [startswith_cons, ih]

theorem startswith_iff (p s : PyStr) : startswith p s = true ↔ ∃ r, s = p ++ r := by
  induction p generalizing s with
  | nil => simp [startswith]
  | cons a t ih =>
    cases s with
    | nil => simp [startswith]
    | cons b u =>
      simp only [startswith_cons, Bool.and_eq_true, beq_iff_eq, ih, List.cons_append,
        List.cons.injEq]
      constructor
      · rintro ⟨h1, r, h2⟩
        exact ⟨r, h1.symm, h2⟩
      · rintro ⟨r, h1, h2⟩
        exact ⟨h1.symm, r, h2⟩

theorem startswith_append_both (a b s : PyStr) :
    startswith (a ++ b) (a ++ s) = startswith b s := by
  induction a with
  | nil => rfl
  | cons c t ih => simp [startswith_cons, ih]

theorem startswith_of_append (a b s : PyStr) (h : startswith (a ++ b) s = true) :
    startswith a s = true := by
  rcases (startswith_iff _ _).1 h with ⟨r, rfl⟩
  rw [List.append_assoc]
  exact startswith_append_left _ _

theorem endswith_iff (f s : PyStr) : endswith f s = true ↔ ∃ r, s = r ++ f := by
  unfold endswith
  rw [startswith_iff]
  constructor
  · rintro ⟨r, hr⟩
    refine ⟨r.reverse, ?_⟩
    have h2 := congrArg List.reverse hr
    simpa using h2
  · rintro ⟨r, rfl⟩
    exact ⟨r.reverse, by simp⟩

theorem fenceSql_split : fenceSql = fence ++ sqlTag := by decide

theorem isEmpty_append_left {a : PyStr} (b : PyStr) (h : a ≠ []) :
    (a ++ b).isEmpty = false := by
  cases a with
  | nil => exact absurd rfl h
  | cons x r => rfl

theorem drop_append_len (a b : PyStr) (n : Nat) (h : a.length = n) : (a ++ b).drop n = b := by
  subst h
  exact List.drop_left a b

theorem dropRight_append_len (a b : PyStr) (n : Nat) (h : b.length = n) :
    dropRight (a ++ b) n = a := by
  subst h
  unfold dropRight
  rw [List.length_append, Nat.add_sub_cancel]
  exact List.take_left a b

theorem dropWhile_dropWhile (p : Char → Bool) (l : PyStr) :
    List.dropWhile p (List.dropWhile p l) = List.dropWhile p l := by
  induction l with
  | nil => rfl
  | cons a r ih =>
    rw [List.dropWhile_cons]
    split
    · exact ih
    · rw [List.dropWhile_cons]
      simp [*]

theorem lstrip_idem (s : PyStr) : lstrip (lstrip s) = lstrip s :=
  dropWhile_dropWhile pyIsSpace s

theorem rstrip_idem (s : PyStr) : rstrip (rstrip s) = rstrip s := by
  induction s with
  | nil => rfl
  | cons a r ih =>
    rw [rstrip]
    split
    next h => rfl
    next h =>
      rw [rstrip, ih]
      simp only [if_neg h]

theorem pyHead_not_space {p : Char → Bool} {a : Char} {r : PyStr}
    (h : List.dropWhile p (a :: r) = a :: r) : p a = false := by
  by_contra hp
  rw [Bool.not_eq_false] at hp
  rw [List.dropWhile_cons, if_pos hp] at h
  have hle := List.Sublist.length_le (List.dropWhile_sublist (l := r) p)
  rw [h] at hle
  simp at hle

theorem lstrip_rstrip {x : PyStr} (h : lstrip x = x) : lstrip (rstrip x) = rstrip x := by
  cases x with
  | nil => rfl
  | cons a r =>
    have ha : pyIsSpace a = false := pyHead_not_space h
    rw [rstrip]
    split
    · rfl
    · show List.dropWhile pyIsSpace (a :: rstrip r) = a :: rstrip r
      rw [List.dropWhile_cons, if_neg (by simp [ha])]

theorem strip_idem (s : PyStr) : strip (strip s) = strip s := by
  show rstrip (lstrip (rstrip (lstrip s))) = rstrip (lstrip s)
  rw [lstrip_rstrip (lstrip_idem s), rstrip_idem]

theorem strip_fences_sql (body : PyStr) :
    strip_fences (fenceSql ++ body ++ fence) = strip body := by
  have hsw : startswith fenceSql (fenceSql ++ body ++ fence) = true := by
    rw [List.append_assoc]
    exact startswith_append_left _ _
  have hew : endswith fence (fenceSql ++ body ++ fence) = true :=
    (endswith_iff _ _).2 ⟨fenceSql ++ body, rfl⟩
  have hne : (fenceSql ++ body ++ fence).isEmpty = false := by
    rw [List.append_assoc]
    exact isEmpty_append_left _ (by decide)
  unfold strip_fences
  rw [if_pos (by rw [hsw, hew, hne]; rfl)]
  rw [List.append_assoc, drop_append_len fenceSql (body ++ fence) 6 rfl,
    dropRight_append_len body fence 3 rfl]

theorem sql_not_head {body : PyStr} (h : startswith sqlTag body = false) :
    startswith sqlTag (body ++ fence) = false := by
  have hq : startswith ['q', 'l'] fence = false := by decide
  have hl : startswith ['l'] fence = false := by decide
  match body with
  | [] => decide
  | [c] =>
    simp [startswith, sqlTag, hq]
  | [c, d] =>
    simp [startswith, sqlTag, hl]
  | c :: d :: e :: r =>
    simp only [startswith, sqlTag, List.cons_append] at h ⊢
    simpa using h

theorem strip_fences_plain (body : PyStr) (h : startswith sqlTag (body ++ fence) = false) :
    strip_fences (fence ++ body ++ fence) = strip body := by
  have hsw1 : startswith fenceSql (fence ++ body ++ fence) = false := by
    rw [List.append_assoc, fenceSql_split, startswith_append_both]
    exact h
  have hsw : startswith fence (fence ++ body ++ fence) = true := by
    rw [List.append_assoc]
    exact startswith_append_left _ _
  have hew : endswith fence (fence ++ body ++ fence) = true :=
    (endswith_iff _ _).2 ⟨fence ++ body, rfl⟩
  have hne : (fence ++ body ++ fence).isEmpty = false := by
    rw [List.append_assoc]
    exact isEmpty_append_left _ (by decide)
  unfold strip_fences
  rw [if_neg (by rw [hsw1]; simp), if_pos (by rw [hsw, hew, hne]; rfl)]
  rw [List.append_assoc, drop_append_len fence (body ++ fence) 3 rfl,
    dropRight_append_len body fence 3 rfl]

theorem strip_fences_unwrapped {q : PyStr} (h : fence_wrapped q = false) :
    strip_fences q = q := by
  unfold fence_wrapped at h
  have h1 : (!q.isEmpty && startswith fenceSql q && endswith fence q) = false := by
    by_contra hb
    rw [Bool.not_eq_false, Bool.and_eq_true, Bool.and_eq_true] at hb
    obtain ⟨⟨he, hs⟩, hw⟩ := hb
    have hf : startswith fence q = true := by
      rw [fenceSql_split] at hs
      exact startswith_of_append _ _ _ hs
    simp [he, hf, hw] at h
  unfold strip_fences
  rw [if_neg (by simp [h1]), if_neg (by simp [h])]

theorem strip_fences_trimmed (raw : PyStr) :
    strip (sanitizeResponse raw) = sanitizeResponse raw := by
  unfold sanitizeResponse strip_fences
  split
  · exact strip_idem _
  · split
    · exact strip_idem _
    · exact strip_idem _

/-- Claim C1 (as stated, refuted at a concrete input): for the completion
fenced with the language tag `python`, the sanitization step does not
return the trimmed interior content `SELECT 1`; it returns
`python\nSELECT 1`, i.e. the tag survives, because the code only
special-cases the `sql` tag and otherwise strips just three characters. -/
theorem C1_counterexample :
    sanitizeResponse "```python\nSELECT 1\n```".data = "python\nSELECT 1".data ∧
    "python\nSELECT 1".data ≠ "SELECT 1".data := by
  constructor
  · decide
  · decide

/-- Claim C1 (amended): for every raw completion that after trimming is a
well-formed triple-backtick fenced block whose language tag is exactly
`sql`, or has no language tag (the interior not itself beginning with
the letters `sql`), the sanitization step inside `process_question`
returns exactly the interior content with surrounding whitespace
trimmed.  For any other language tag only the three backticks are
removed and the tag is left in place. -/
theorem C1_theorem (raw body : PyStr)
    (h : strip raw = fenceSql ++ body ++ fence ∨
         (strip raw = fence ++ body ++ fence ∧ startswith sqlTag body = false)) :
    sanitizeResponse raw = strip body := by
  unfold sanitizeResponse
  rcases h with h | ⟨h, htag⟩
  · rw [h, strip_fences_sql]
  · rw [h, strip_fences_plain _ (sql_not_head htag)]

/-- Witness for C1 (amended) at the concrete fenced completion
` ```sql SELECT 1``` `, whose interior ` SELECT 1` trims to `SELECT 1`. -/
theorem C1_witness :
    sanitizeResponse "```sql SELECT 1```".data = strip " SELECT 1".data :=
  C1_theorem "```sql SELECT 1```".data " SELECT 1".data (Or.inl (by decide))

/-- Claim C5: for every trimmed input that is not wrapped in both a
leading triple-backtick fence and a trailing triple-backtick fence, the
sanitization step of `process_question` is the identity up to the
initial trimming: it returns the trimmed text unchanged. -/
theorem C5_theorem (raw : PyStr)
    (h : ¬ (startswith fence (strip raw) = true ∧ endswith fence (strip raw) = true)) :
    sanitizeResponse raw = strip raw := by
  unfold sanitizeResponse
  apply strip_fences_unwrapped
  unfold fence_wrapped
  cases hsw : startswith fence (strip raw) with
  | false => simp
  | true =>
    cases hew : endswith fence (strip raw) with
    | false => simp
    | true => exact absurd ⟨hsw, hew⟩ h

/-- Witness for C5 at a concrete unfenced input with surrounding blanks. -/
theorem C5_witness :
    sanitizeResponse " SELECT 1; ".data = strip " SELECT 1; ".data :=
  C5_theorem " SELECT 1; ".data (by decide)

/-- Claim C6 (as stated, refuted at a concrete input): the sanitization
step is not idempotent.  On the input with nested fences
` ``````SELECT`````` ` the first application yields ` ```SELECT``` ` and
the second strips again, yielding `SELECT`. -/
theorem C6_counterexample :
    sanitizeResponse (sanitizeResponse "``````SELECT``````".data) ≠
      sanitizeResponse "``````SELECT``````".data := by
  decide

/-- Claim C6 (amended): the sanitization step is idempotent on every
input whose sanitized output is not itself wrapped in a leading and a
trailing triple-backtick fence; re-sanitizing such an already-sanitized
output is a no-op.  (When stripping reveals another fenced block, a
second application strips again, so unrestricted idempotence fails.) -/
theorem C6_theorem (raw : PyStr) (h : fence_wrapped (sanitizeResponse raw) = false) :
    sanitizeResponse (sanitizeResponse raw) = sanitizeResponse raw := by
  show strip_fences (strip (sanitizeResponse raw)) = sanitizeResponse raw
  rw [strip_fences_trimmed]
  exact strip_fences_unwrapped h

/-- Witness for C6 (amended) at a concrete singly-fenced input. -/
theorem C6_witness :
    sanitizeResponse (sanitizeResponse "```\nSELECT 2\n```".data) =
      sanitizeResponse "```\nSELECT 2\n```".data :=
  C6_theorem "```\nSELECT 2\n```".data (by decide)

theorem questionsLoop_eq_map (llm : PyStr → LLMOutcome) (ex : PyStr → ExecOutcome)
    (qs : List PyStr) :
    questionsLoop llm ex qs = qs.map (fun q => (q, process_question llm ex q)) := by
  induction qs with
  | nil => rfl
  | cons q rest ih => simp [questionsLoop, ih]

theorem questionsLoop_map_fst (llm : PyStr → LLMOutcome) (ex : PyStr → ExecOutcome)
    (qs : List PyStr) :
    (questionsLoop llm ex qs).map (fun r => r.1) = qs := by
  induction qs with
  | nil => rfl
  | cons q rest ih => simp [questionsLoop, ih]

theorem genErrorText_ne_execErrorText (e m : PyStr) : genErrorText e ≠ execErrorText m := by
  intro hlist
  unfold genErrorText execErrorText at hlist
  have h7 := congrArg (List.take 7) hlist
  rw [List.take_append_of_le_length (by decide),
    List.take_append_of_le_length (by decide)] at h7
  exact absurd h7 (by decide)

/-- Claim C2: if the LLM call raises for a question, `process_question`
returns `None` for the query together with the generation-error string as
the result; the executor is never invoked (the outcome is independent of
the executor oracle), and the reported result is the generation error,
never an execution error. -/
theorem C2_theorem (llm : PyStr → LLMOutcome) (q e : PyStr)
    (h : llm q = LLMOutcome.err e) (ex ex2 : PyStr → ExecOutcome) :
    process_question llm ex q = (none, QueryResult.errMsg (genErrorText e)) ∧
    process_question llm ex q = process_question llm ex2 q ∧
    ∀ m, (process_question llm ex q).2 ≠ QueryResult.errMsg (execErrorText m) := by
  have hpq : ∀ ex0 : PyStr → ExecOutcome,
      process_question llm ex0 q = (none, QueryResult.errMsg (genErrorText e)) := by
    intro ex0
    unfold process_question
    rw [h]
  refine ⟨hpq ex, (hpq ex).trans (hpq ex2).symm, ?_⟩
  intro m hc
  rw [hpq ex] at hc
  have hc2 : QueryResult.errMsg (genErrorText e) = QueryResult.errMsg (execErrorText m) := hc
  exact genErrorText_ne_execErrorText e m (QueryResult.errMsg.inj hc2)

/-- Witness for C2 with an always-raising LLM oracle and two distinct
executor oracles. -/
theorem C2_witness :
    process_question (fun _ => LLMOutcome.err "rate limit".data)
        (fun _ => ExecOutcome.ok ⟨[], []⟩) "List all customers in Canada.".data =
      (none, QueryResult.errMsg (genErrorText "rate limit".data)) :=
  (C2_theorem (fun _ => LLMOutcome.err "rate limit".data)
    "List all customers in Canada.".data "rate limit".data rfl
    (fun _ => ExecOutcome.ok ⟨[], []⟩) (fun _ => ExecOutcome.err [])).1

/-- Claim C3: whenever executing the generated SQL raises, `process_question`
returns the error string as the result instead of raising past its own
boundary, and the driver loop still produces one report per question, in
order, for the whole question list. -/
theorem C3_theorem (llm : PyStr → LLMOutcome) (ex : PyStr → ExecOutcome)
    (q raw m : PyStr) (qs : List PyStr)
    (hgen : llm q = LLMOutcome.ok raw)
    (hex : ex (sanitizeResponse raw) = ExecOutcome.err m) :
    process_question llm ex q =
      (some (sanitizeResponse raw), QueryResult.errMsg (execErrorText m)) ∧
    (questionsLoop llm ex qs).map (fun r => r.1) = qs := by
  constructor
  · unfold process_question
    rw [hgen]
    simp [hex]
  · exact questionsLoop_map_fst llm ex qs

/-- Witness for C3: a generated query referencing a non-existent table,
an executor oracle that raises on it, and the full example-question list. -/
theorem C3_witness :
    process_question (fun _ => LLMOutcome.ok "SELECT * FROM Foo".data)
        (fun _ => ExecOutcome.err "no such table: Foo".data) "list foos".data =
      (some (sanitizeResponse "SELECT * FROM Foo".data),
        QueryResult.errMsg (execErrorText "no such table: Foo".data)) :=
  (C3_theorem (fun _ => LLMOutcome.ok "SELECT * FROM Foo".data)
    (fun _ => ExecOutcome.err "no such table: Foo".data) "list foos".data
    "SELECT * FROM Foo".data "no such table: Foo".data questions rfl rfl).1

/-- Claim C7: the driver loop processes the questions strictly in list
order, producing exactly one report per question (each report pairing the
question with the outcome of `process_question` on it), and every
report's result component is a terminal value: either a tabular
DataFrame or an error-message string.  `process_question` is a total
function of its oracles, so no unhandled exception and no absent result
can occur in the model. -/
theorem C7_theorem (llm : PyStr → LLMOutcome) (ex : PyStr → ExecOutcome) (qs : List PyStr) :
    questionsLoop llm ex qs = qs.map (fun q => (q, process_question llm ex q)) ∧
    (questionsLoop llm ex qs).map (fun r => r.1) = qs ∧
    ∀ r ∈ questionsLoop llm ex qs,
      (∃ df, r.2.2 = QueryResult.table df) ∨ (∃ msg, r.2.2 = QueryResult.errMsg msg) := by
  refine ⟨questionsLoop_eq_map llm ex qs, questionsLoop_map_fst llm ex qs, ?_⟩
  intro r _
  cases h : r.2.2 with
  | table df => exact Or.inl ⟨df, rfl⟩
  | errMsg msg => exact Or.inr ⟨msg, rfl⟩

/-- Witness for C7 on the script's own question list with a failing LLM
oracle. -/
theorem C7_witness :
    (questionsLoop (fun _ => LLMOutcome.err "http 500".data)
        (fun _ => ExecOutcome.err "no database".data) questions).map (fun r => r.1) =
      questions :=
  (C7_theorem (fun _ => LLMOutcome.err "http 500".data)
    (fun _ => ExecOutcome.err "no database".data) questions).2.1

/-- Claim C10: `display_schema` never reads its `conn` parameter — its body
uses the module-global cursor — so its value is the same for any two
argument values under the same global cursor state. -/
theorem C10_theorem (cursor a b : Cursor) :
    display_schema cursor a = display_schema cursor b := rfl

theorem splitLines_ne_nil (s : PyStr) : splitLines s ≠ [] := by
  induction s with
  | nil => simp [splitLines]
  | cons c r ih =>
    rw [splitLines]
    split
    · simp
    · cases h : splitLines r with
      | nil => exact absurd h ih
      | cons l ls => simp [consHead]

theorem consHead_append (c : Char) (xs ys : List PyStr) (h : xs ≠ []) :
    consHead c (xs ++ ys) = consHead c xs ++ ys := by
  cases xs with
  | nil => exact absurd rfl h
  | cons l ls => rfl

theorem splitLines_nl_cons (y : PyStr) : splitLines ('\n' :: y) = [] :: splitLines y := by
  rw [splitLines, if_pos rfl]

theorem splitLines_append_nl (a b : PyStr) :
    splitLines (a ++ '\n' :: b) = splitLines a ++ splitLines b := by
  induction a with
  | nil => simp [splitLines_nl_cons, splitLines]
  | cons c r ih =>
    show splitLines (c :: (r ++ '\n' :: b)) = splitLines (c :: r) ++ splitLines b
    rw [splitLines, splitLines]
    split
    · rw [ih]
      rfl
    · rw [ih, consHead_append c _ _ (splitLines_ne_nil r)]

theorem splitLines_no_nl (s : PyStr) (h : ('\n' : Char) ∉ s) : splitLines s = [s] := by
  induction s with
  | nil => rfl
  | cons c r ih =>
    rw [List.mem_cons, not_or] at h
    obtain ⟨h1, h2⟩ := h
    rw [splitLines, if_neg (fun hc => h1 hc.symm), ih h2]
    rfl

theorem no_nl_headerText {t : PyStr} (h : ('\n' : Char) ∉ t) :
    ('\n' : Char) ∉ headerText t := by
  unfold headerText
  rw [List.mem_append, not_or]
  exact ⟨by decide, h⟩

theorem splitLines_headerBlock (t x : PyStr) (h : ('\n' : Char) ∉ t) :
    splitLines (headerText t ++ ("\nColumns:\n".data ++ x)) =
      headerText t :: "Columns:".data :: splitLines x := by
  have e1 : "\nColumns:\n".data ++ x = '\n' :: ("Columns:".data ++ '\n' :: x) := rfl
  rw [e1, splitLines_append_nl, splitLines_append_nl,
    splitLines_no_nl (headerText t) (no_nl_headerText h),
    splitLines_no_nl "Columns:".data (by decide)]
  rfl

theorem no_nl_renderColumn {c : Column}
    (h : ('\n' : Char) ∉ c.name ∧ ('\n' : Char) ∉ c.ctype) :
    ('\n' : Char) ∉ renderColumn c := by
  have d1 : ('\n' : Char) ∉ "  - ".data := by decide
  have d2 : ('\n' : Char) ∉ " (".data := by decide
  have d3 : ('\n' : Char) ∉ ")".data := by decide
  unfold renderColumn
  simp [List.mem_append, d1, d2, d3, h.1, h.2]

theorem splitLines_renderColumns (cs : List Column) (x : PyStr)
    (h : ∀ c ∈ cs, ('\n' : Char) ∉ c.name ∧ ('\n' : Char) ∉ c.ctype) :
    splitLines (renderColumns cs ++ x) = cs.map renderColumn ++ splitLines x := by
  induction cs with
  | nil => simp [renderColumns]
  | cons c cr ih =>
    obtain ⟨hc, hcr⟩ := List.forall_mem_cons.1 h
    have e1 : renderColumns (c :: cr) ++ x = renderColumn c ++ '\n' :: (renderColumns cr ++ x) := by
      simp [renderColumns, renderColumnNl, List.append_assoc]
    rw [e1, splitLines_append_nl, splitLines_no_nl _ (no_nl_renderColumn hc), ih hcr]
    rfl

theorem splitLines_schemaGo (colsOf : PyStr → List Column) (ts : List PyStr)
    (hts : ∀ t ∈ ts, ('\n' : Char) ∉ t)
    (hcs : ∀ t ∈ ts, ∀ c ∈ colsOf t, ('\n' : Char) ∉ c.name ∧ ('\n' : Char) ∉ c.ctype) :
    splitLines (schemaGo (fun n => MetaResult.ok (colsOf n)) ts) =
      (ts.map (blockLines colsOf)).flatten ++ [[]] := by
  revert hts hcs
  induction ts with
  | nil =>
    intro _ _
    rfl
  | cons t tr ih =>
    intro hts hcs
    obtain ⟨ht, htr⟩ := List.forall_mem_cons.1 hts
    obtain ⟨hc, hcr⟩ := List.forall_mem_cons.1 hcs
    have e0 : schemaGo (fun n => MetaResult.ok (colsOf n)) (t :: tr) =
        headerText t ++ ("\nColumns:\n".data ++
          (renderColumns (colsOf t) ++ '\n' :: schemaGo (fun n => MetaResult.ok (colsOf n)) tr)) := by
      show headerText t ++ "\nColumns:\n".data ++ renderColumns (colsOf t) ++ "\n".data ++
          schemaGo (fun n => MetaResult.ok (colsOf n)) tr = _
      simp [List.append_assoc]
    rw [e0, splitLines_headerBlock t _ ht, splitLines_renderColumns _ _ hc,
      splitLines_nl_cons, ih htr hcr]
    simp [blockLines, List.append_assoc]

theorem headerLine_headerText (t : PyStr) : headerLine (headerText t) = true := by
  unfold headerLine
  have e : headerText t = "table:".data ++ (' ' :: t) := rfl
  rw [e]
  exact startswith_append_left _ _

theorem startswith_ne_head (a b : Char) (p s : PyStr) (h : (a == b) = false) :
    startswith (a :: p) (b :: s) = false := by
  rw [startswith_cons, h, Bool.false_and]

theorem headerLine_renderColumn (c : Column) : headerLine (renderColumn c) = false := by
  unfold headerLine
  have e : renderColumn c =
      ' ' :: (" - ".data ++ (c.name ++ (" (".data ++ (c.ctype ++ ")".data)))) := by
    simp [renderColumn, List.append_assoc]
  rw [e, show "table:".data = 't' :: "able:".data from rfl]
  exact startswith_ne_head _ _ _ _ (by decide)

theorem columnLine_renderColumn (c : Column) : columnLine (renderColumn c) = true := by
  unfold columnLine
  have e : renderColumn c =
      "  - ".data ++ (c.name ++ (" (".data ++ (c.ctype ++ ")".data))) := by
    simp [renderColumn, List.append_assoc]
  rw [e]
  exact startswith_append_left _ _

theorem columnLine_headerText (t : PyStr) : columnLine (headerText t) = false := by
  unfold columnLine
  have e : headerText t = 't' :: ("able: ".data ++ t) := rfl
  rw [e, show "  - ".data = ' ' :: " - ".data from rfl]
  exact startswith_ne_head _ _ _ _ (by decide)

theorem sum_map_one {α : Type} (l : List α) : (l.map (fun _ => (1 : Nat))).sum = l.length := by
  induction l with
  | nil => rfl
  | cons a r ih => simp [ih, Nat.add_comm]

theorem countHeader_block (colsOf : PyStr → List Column) (t : PyStr) :
    List.countP headerLine (blockLines colsOf t) = 1 := by
  unfold blockLines
  have h0 : List.countP headerLine ((colsOf t).map renderColumn) = 0 := by
    rw [List.countP_map]
    exact List.countP_eq_zero.2
      (fun c _ => by simp [Function.comp, headerLine_renderColumn])
  have hcol : headerLine "Columns:".data = false := by decide
  have hnil : headerLine ([] : PyStr) = false := by decide
  rw [List.countP_cons, List.countP_cons, List.countP_append, h0,
    headerLine_headerText, hcol]
  simp [List.countP, List.countP.go, hnil]

theorem countColumn_block (colsOf : PyStr → List Column) (t : PyStr) :
    List.countP columnLine (blockLines colsOf t) = (colsOf t).length := by
  unfold blockLines
  have h0 : List.countP columnLine ((colsOf t).map renderColumn) = (colsOf t).length := by
    rw [List.countP_map]
    have hlen := List.countP_eq_length (l := colsOf t) (p := columnLine ∘ renderColumn)
    exact hlen.2 (fun c _ => by simp [Function.comp, columnLine_renderColumn])
  have hcol : columnLine "Columns:".data = false := by decide
  have hnil : columnLine ([] : PyStr) = false := by decide
  rw [List.countP_cons, List.countP_cons, List.countP_append, h0,
    columnLine_headerText, hcol]
  simp [List.countP, List.countP.go, hnil]

theorem countP_flatten_map {α : Type} (p : PyStr → Bool) (f : α → List PyStr) (k : α → Nat)
    (h : ∀ t, List.countP p (f t) = k t) (ts : List α) :
    List.countP p (ts.map f).flatten = (ts.map k).sum := by
  induction ts with
  | nil => rfl
  | cons t tr ih => simp [List.countP_append, h, ih]

/-- Claim C4: on a database whose metadata enumeration succeeds, with user
tables (the internal `sqlite_sequence` excluded) carrying newline-free
names and column metadata, the output of `display_schema` contains
exactly one `table:` header line per user table and exactly one column
line (`  - name (type)`) per column, summed over the user tables. -/
theorem C4_theorem (names : List PyStr) (colsOf : PyStr → List Column) (conn : Cursor)
    (hnames : ∀ t ∈ names, ('\n' : Char) ∉ t)
    (hcols : ∀ t ∈ names, ∀ c ∈ colsOf t, ('\n' : Char) ∉ c.name ∧ ('\n' : Char) ∉ c.ctype) :
    countHeaderLines (display_schema
        ⟨MetaResult.ok names, fun n => MetaResult.ok (colsOf n)⟩ conn) =
      (names.filter (fun n => n ≠ sqliteSequence)).length ∧
    countColumnLines (display_schema
        ⟨MetaResult.ok names, fun n => MetaResult.ok (colsOf n)⟩ conn) =
      ((names.filter (fun n => n ≠ sqliteSequence)).map (fun t => (colsOf t).length)).sum := by
  have hts : ∀ t ∈ names.filter (fun n => n ≠ sqliteSequence), ('\n' : Char) ∉ t :=
    fun t ht => hnames t (List.mem_of_mem_filter ht)
  have hcs : ∀ t ∈ names.filter (fun n => n ≠ sqliteSequence),
      ∀ c ∈ colsOf t, ('\n' : Char) ∉ c.name ∧ ('\n' : Char) ∉ c.ctype :=
    fun t ht => hcols t (List.mem_of_mem_filter ht)
  have e : display_schema ⟨MetaResult.ok names, fun n => MetaResult.ok (colsOf n)⟩ conn =
      schemaGo (fun n => MetaResult.ok (colsOf n))
        (names.filter (fun n => n ≠ sqliteSequence)) := rfl
  have hnilH : List.countP headerLine [([] : PyStr)] = 0 := by decide
  have hnilC : List.countP columnLine [([] : PyStr)] = 0 := by decide
  constructor
  · rw [countHeaderLines, e, splitLines_schemaGo colsOf _ hts hcs,
      List.countP_append,
      countP_flatten_map headerLine (blockLines colsOf) (fun _ => 1)
        (countHeader_block colsOf), hnilH, Nat.add_zero, sum_map_one]
  · rw [countColumnLines, e, splitLines_schemaGo colsOf _ hts hcs,
      List.countP_append,
      countP_flatten_map columnLine (blockLines colsOf) (fun t => (colsOf t).length)
        (countColumn_block colsOf), hnilC, Nat.add_zero]

/-- Witness for C4 on a concrete three-table catalogue in which
`sqlite_sequence` is filtered out, leaving two user tables with two and
three columns. -/
theorem C4_witness :
    countHeaderLines (display_schema
        ⟨MetaResult.ok namesW, fun n => MetaResult.ok (colsOfW n)⟩
        ⟨MetaResult.ok [], fun _ => MetaResult.ok []⟩) =
      (namesW.filter (fun n => n ≠ sqliteSequence)).length ∧
    countColumnLines (display_schema
        ⟨MetaResult.ok namesW, fun n => MetaResult.ok (colsOfW n)⟩
        ⟨MetaResult.ok [], fun _ => MetaResult.ok []⟩) =
      ((namesW.filter (fun n => n ≠ sqliteSequence)).map (fun t => (colsOfW t).length)).sum :=
  C4_theorem namesW colsOfW ⟨MetaResult.ok [], fun _ => MetaResult.ok []⟩
    (by decide) (by decide)

theorem schemaGo_exc (ti : PyStr → MetaResult (List Column)) (ts : List PyStr) (m : PyStr)
    (h : firstExcAux ti ts = some m) :
    ∃ p, schemaGo ti ts = p ++ errText m := by
  induction ts with
  | nil => simp [firstExcAux] at h
  | cons t tr ih =>
    cases hti : ti t with
    | exc m2 =>
      have hm : m2 = m := by
        simp [firstExcAux, hti] at h
        exact h
      subst hm
      refine ⟨headerText t ++ "\nColumns:\n".data, ?_⟩
      simp only [schemaGo, hti, List.append_assoc]
    | ok cols =>
      have h2 : firstExcAux ti tr = some m := by
        simp [firstExcAux, hti] at h
        exact h
      obtain ⟨p, hp⟩ := ih h2
      refine ⟨headerText t ++ "\nColumns:\n".data ++ renderColumns cols ++ "\n".data ++ p, ?_⟩
      simp only [schemaGo, hti, hp, List.append_assoc]

/-- Claim C8: whenever the metadata enumeration inside `display_schema`
raises (either listing the tables or reading some table's columns),
`display_schema` still returns a string: the partial schema gathered so
far with the embedded error message appended, and the exception does not
propagate (the function is total in the model). -/
theorem C8_theorem (cursor : Cursor) (conn : Cursor) (m : PyStr)
    (h : excOf cursor = some m) :
    ∃ p, display_schema cursor conn = p ++ errText m := by
  obtain ⟨lt, ti⟩ := cursor
  cases lt with
  | exc m2 =>
    have hm : m2 = m := by
      simp [excOf] at h
      exact h
    subst hm
    exact ⟨[], by simp [display_schema]⟩
  | ok names =>
    have h2 : firstExcAux ti (names.filter (fun n => n ≠ sqliteSequence)) = some m := by
      simpa [excOf] using h
    obtain ⟨p, hp⟩ := schemaGo_exc ti _ m h2
    exact ⟨p, by simpa [display_schema] using hp⟩

/-- Witness for C8 on a concrete cursor whose `PRAGMA table_info` raises
for the second table. -/
theorem C8_witness :
    ∃ p, display_schema
        ⟨MetaResult.ok ["Artist".data, "Album".data],
          fun n => if n = "Artist".data then MetaResult.ok [] else
            MetaResult.exc "disk I-O error".data⟩
        ⟨MetaResult.ok [], fun _ => MetaResult.ok []⟩ =
      p ++ errText "disk I-O error".data :=
  C8_theorem
    ⟨MetaResult.ok ["Artist".data, "Album".data],
      fun n => if n = "Artist".data then MetaResult.ok [] else
        MetaResult.exc "disk I-O error".data⟩
    ⟨MetaResult.ok [], fun _ => MetaResult.ok []⟩ "disk I-O error".data (by decide)

/-- Claim C9: the script exits early if and only if one of the four fatal
setup failures occurs — the seed SQL file is missing/unreadable, the
database load fails, the initial connection fails, or the API key is
missing (or empty) — and when none occurs, the run proceeds to process
every example question (one report per question, in order) regardless of
per-question errors from the LLM or executor oracles. -/
theorem C9_theorem (env : SetupEnv) (llm : PyStr → LLMOutcome) (ex : PyStr → ExecOutcome) :
    (mainScript env llm ex = RunResult.exitEarly ↔ setupFails env = true) ∧
    (setupFails env = false →
      mainScript env llm ex = RunResult.completed (questionsLoop llm ex questions) ∧
      (questionsLoop llm ex questions).map (fun r => r.1) = questions) := by
  obtain ⟨rs, ld, ac, cd, key⟩ := env
  cases rs with
  | error e => simp [mainScript, setupFails]
  | ok script =>
    cases hld : ld script with
    | error e => simp [mainScript, setupFails, hld]
    | ok u =>
      cases cd with
      | error e => simp [mainScript, setupFails, hld]
      | ok u2 =>
        cases key with
        | none => simp [mainScript, setupFails, hld]
        | some k =>
          cases hk : k.isEmpty with
          | true => simp [mainScript, setupFails, hld, hk]
          | false =>
            constructor
            · simp [mainScript, setupFails, hld, hk]
            · intro _
              exact ⟨by simp [mainScript, hld, hk], questionsLoop_map_fst llm ex questions⟩

/-- Witness for C9 on a concrete environment in which every setup step
succeeds and both per-question oracles fail; the run still completes. -/
theorem C9_witness :
    mainScript ⟨Except.ok [], fun _ => Except.ok (), Except.ok 275, Except.ok (), some ['k']⟩
        (fun _ => LLMOutcome.err "http 500".data) (fun _ => ExecOutcome.err "closed".data) =
      RunResult.completed (questionsLoop (fun _ => LLMOutcome.err "http 500".data)
        (fun _ => ExecOutcome.err "closed".data) questions) :=
  ((C9_theorem ⟨Except.ok [], fun _ => Except.ok (), Except.ok 275, Except.ok (), some ['k']⟩
    (fun _ => LLMOutcome.err "http 500".data) (fun _ => ExecOutcome.err "closed".data)).2
    (by decide)).1
